import Mathlib

/-!
Verification of the presidio-based data-steward repository.

The Lean definitions below are shallow embeddings of the Python source:
`core/csv_pii.py` (span conflict resolution and masking),
`core/util.py` (recommendation serialization), `core/recommendation.py`
(missing-value analysis and decision-maker response handling),
`core/data_quality.py` (quality scoring) and `core/data_steward.py`
(feedback application engine).  Machine floats are modelled as rationals,
pandas series as lists, Python dicts as association lists.
-/

namespace Presidio

/-- An analyzer entity span (`RecognizerResult`): character start/end offsets,
entity type and confidence score (a float, modelled as `ℚ`).
From `presidio` results as consumed in `core/csv_pii.py`. -/
structure Span where
  start : Nat
  stop : Nat
  entityType : String
  score : ℚ
deriving DecidableEq, Repr

/-- `r.end - r.start` in the source (`csv_pii.py` lines 121-122), as an
integer so that malformed spans need no side condition. -/
def spanLen (r : Span) : Int := (r.stop : Int) - (r.start : Int)

/-- The sort key order of `results.sort(key=lambda x: (x.start, -x.end))`
(`csv_pii.py` line 114): start ascending, end descending. -/
def keyLe (a b : Span) : Prop :=
  a.start < b.start ∨ (a.start = b.start ∧ b.stop ≤ a.stop)

instance : DecidableRel keyLe := fun a b => by
  unfold keyLe; infer_instance

instance : IsTotal Span keyLe := by
  constructor
  intro a b
  unfold keyLe
  omega

instance : IsTrans Span keyLe := by
  constructor
  intro a b c hab hbc
  unfold keyLe at *
  omega

/-- Python's `list.sort` is a stable sort; `List.insertionSort` is the stable
sort available here, applied with the `(start, -end)` lexicographic key. -/
def sortSpans (l : List Span) : List Span := l.insertionSort keyLe

/-- Replacement test of the greedy walk (`csv_pii.py` line 123): the new span
`r` replaces the incumbent `prev` iff it is strictly longer, or of equal
length with strictly higher score. -/
def replaces (r prev : Span) : Prop :=
  spanLen prev < spanLen r ∨ (spanLen r = spanLen prev ∧ prev.score < r.score)

instance : ∀ r prev, Decidable (replaces r prev) := fun r prev => by
  unfold replaces; infer_instance

/-- The greedy walk of `csv_pii.py` lines 115-129 with incumbent `prev`:
an overlapping span (`r.start < prev.end`) either replaces the incumbent or
is discarded; a non-overlapping span commits the incumbent to the selection. -/
def walkGo (prev : Span) : List Span → List Span
  | [] => [prev]
  | r :: rs =>
    if r.start < prev.stop then
      if replaces r prev then walkGo r rs else walkGo prev rs
    else
      prev :: walkGo r rs

/-- Run the greedy walk on an already-sorted list (empty list yields no
selection, matching `prev = None` never being set). -/
def walkAll : List Span → List Span
  | [] => []
  | x :: xs => walkGo x xs

/-- The span conflict resolver of `full_analyze_mask` (`csv_pii.py` lines
113-129): sort by `(start, -end)`, then walk greedily. -/
def resolveSpans (l : List Span) : List Span := walkAll (sortSpans l)

theorem walkGo_sublist (prev : Span) (rs : List Span) :
    List.Sublist (walkGo prev rs) (prev :: rs) := by
  induction rs generalizing prev with
  | nil => simp [walkGo]
  | cons r rs ih =>
    unfold walkGo
    by_cases h1 : r.start < prev.stop
    · by_cases h2 : replaces r prev
      · simp only [h1, h2, if_pos]
        exact (ih r).cons prev
      · simp only [h1, h2, if_pos, if_neg, not_false_iff]
        exact (ih prev).trans ((List.sublist_cons_self r rs).cons_cons prev)
    · simp only [h1, if_neg, not_false_iff]
      exact (ih r).cons_cons prev

theorem mem_walkGo {y prev : Span} {rs : List Span} (h : y ∈ walkGo prev rs) :
    y ∈ prev :: rs :=
  (walkGo_sublist prev rs).mem h

/-- Non-decreasing start positions. -/
def startLe (a b : Span) : Prop := a.start ≤ b.start

/-- Non-overlap of consecutive spans: the earlier span ends no later than the
later one starts. -/
def apart (a b : Span) : Prop := a.stop ≤ b.start

theorem walkGo_chain (prev : Span) (rs : List Span)
    (hs : List.Sorted startLe (prev :: rs)) :
    List.Chain' apart (walkGo prev rs) := by
  induction rs generalizing prev with
  | nil => simp [walkGo]
  | cons r rs ih =>
    unfold walkGo
    by_cases h1 : r.start < prev.stop
    · by_cases h2 : replaces r prev
      · simp only [h1, h2, if_pos]
        exact ih r (List.Sorted.tail hs)
      · simp only [h1, h2, if_pos, if_neg, not_false_iff]
        refine ih prev (List.Pairwise.sublist ?_ hs)
        exact (List.sublist_cons_self r rs).cons_cons prev
    · simp only [h1, if_neg, not_false_iff]
      have htail : List.Sorted startLe (r :: rs) := List.Sorted.tail hs
      refine (ih r htail).cons' ?_
      intro y hy
      have hmem : y ∈ r :: rs := mem_walkGo (List.mem_of_mem_head? hy)
      have hr : r.start ≤ y.start := by
        rcases List.mem_cons.mp hmem with h | h
        · simp [h, startLe]
        · exact List.rel_of_sorted_cons htail y h
      have : prev.stop ≤ r.start := Nat.le_of_not_lt h1
      unfold apart startLe at *
      omega

theorem walkGo_sorted {r : Span → Span → Prop} (prev : Span) (rs : List Span)
    (hs : List.Sorted r (prev :: rs)) : List.Sorted r (walkGo prev rs) :=
  List.Pairwise.sublist (walkGo_sublist prev rs) hs

theorem sortSpans_sorted (l : List Span) : List.Sorted keyLe (sortSpans l) :=
  List.sorted_insertionSort keyLe l

theorem keyLe_implies_startLe {a b : Span} (h : keyLe a b) : startLe a b := by
  unfold keyLe startLe at *; omega

theorem resolveSpans_sorted_key (l : List Span) :
    List.Sorted keyLe (resolveSpans l) := by
  unfold resolveSpans walkAll
  cases h : sortSpans l with
  | nil => simp
  | cons x xs =>
    have := sortSpans_sorted l
    rw [h] at this
    exact walkGo_sorted x xs this

theorem resolveSpans_sorted_start (l : List Span) :
    List.Sorted startLe (resolveSpans l) :=
  List.Pairwise.imp (fun h => keyLe_implies_startLe h) (resolveSpans_sorted_key l)

theorem resolveSpans_chain (l : List Span) :
    List.Chain' apart (resolveSpans l) := by
  unfold resolveSpans walkAll
  cases h : sortSpans l with
  | nil => simp
  | cons x xs =>
    have := sortSpans_sorted l
    rw [h] at this
    exact walkGo_chain x xs (List.Pairwise.imp (fun h => keyLe_implies_startLe h) this)

theorem walkGo_of_chain (prev : Span) (rs : List Span)
    (h : List.Chain' apart (prev :: rs)) : walkGo prev rs = prev :: rs := by
  induction rs generalizing prev with
  | nil => simp [walkGo]
  | cons r rs ih =>
    have h1 : apart prev r := List.Chain'.rel_head h
    unfold walkGo
    have hnlt : ¬ r.start < prev.stop := by
      unfold apart at h1; omega
    simp only [hnlt, if_neg, not_false_iff]
    rw [ih r (List.Chain'.tail h)]

theorem resolveSpans_fixed (l : List Span)
    (hs : List.Sorted keyLe l) (hc : List.Chain' apart l) :
    resolveSpans l = l := by
  unfold resolveSpans
  rw [show sortSpans l = l from List.Sorted.insertionSort_eq hs]
  cases l with
  | nil => simp [walkAll]
  | cons x xs => exact walkGo_of_chain x xs hc

/-- Running the resolver on its own output returns the output unchanged. -/
theorem resolveSpans_idem (l : List Span) :
    resolveSpans (resolveSpans l) = resolveSpans l :=
  resolveSpans_fixed (resolveSpans l) (resolveSpans_sorted_key l) (resolveSpans_chain l)

/-- Mutual overlap of two spans, as intervals `[start, stop)`. -/
def overlaps (a b : Span) : Prop := a.start < b.stop ∧ b.start < a.stop

instance : ∀ a b, Decidable (overlaps a b) := fun a b => by
  unfold overlaps; infer_instance

theorem resolveSpans_pair (a b : Span) (hov : overlaps a b) :
    resolveSpans [a, b] = (if keyLe a b then (if replaces b a then [b] else [a])
      else (if replaces a b then [a] else [b])) := by
  obtain ⟨h1, h2⟩ := hov
  by_cases hk : keyLe a b
  · have hsort : sortSpans [a, b] = [a, b] := by
      unfold sortSpans List.insertionSort List.orderedInsert
      simp [hk]
    unfold resolveSpans
    rw [hsort]
    unfold walkAll walkGo
    by_cases hr : replaces b a
    · simp [h2, hr, hk, walkGo]
    · simp [h2, hr, hk, walkGo]
  · have hsort : sortSpans [a, b] = [b, a] := by
      unfold sortSpans List.insertionSort List.orderedInsert
      simp [hk]
    unfold resolveSpans
    rw [hsort]
    unfold walkAll walkGo
    by_cases hr : replaces a b
    · simp [h1, hr, hk, walkGo]
    · simp [h1, hr, hk, walkGo]

theorem resolveSpans_pair_longer (a b : Span) (hov : overlaps a b)
    (hlen : spanLen b < spanLen a) : resolveSpans [a, b] = [a] := by
  rw [resolveSpans_pair a b hov]
  have hra : replaces a b := Or.inl hlen
  have hrb : ¬ replaces b a := by
    unfold replaces at *
    omega
  simp [hra, hrb]

theorem resolveSpans_pair_score (a b : Span) (hov : overlaps a b)
    (hlen : spanLen a = spanLen b) (hsc : b.score < a.score) :
    resolveSpans [a, b] = [a] := by
  rw [resolveSpans_pair a b hov]
  have hra : replaces a b := Or.inr ⟨hlen, hsc⟩
  have hrb : ¬ replaces b a := by
    unfold replaces at *
    rintro (hlt | ⟨-, hlt⟩)
    · omega
    · exact absurd hlt (not_lt.mpr (le_of_lt hsc))
  simp [hra, hrb]

/-- `GDPR_CATEGORIES.get(label, "Uncategorized")` (`csv_pii.py` line 150);
the glossary JSON is modelled as an association list. -/
def catOf (glossary : List (String × String)) (label : String) : String :=
  (glossary.lookup label).getD "Uncategorized"

/-- The replacement tag written for a span: `f"<{category}>"`
(`csv_pii.py` line 153), as a character list. -/
def tagOf (glossary : List (String × String)) (e : Span) : List Char :=
  '<' :: (catOf glossary e.entityType).data ++ ['>']

/-- The `mask` function of `csv_pii.py` lines 138-157: copy
`text[last_end:start]`, emit the tag, advance the cursor to `end`, and after
the loop copy `text[last_end:]`.  Python's slice `text[a:b]` for `0 ≤ a, b`
is exactly `(text.drop a).take (b - a)` with truncated subtraction. -/
def maskGo (glossary : List (String × String)) (text : List Char) (lastEnd : Nat) :
    List Span → List Char
  | [] => text.drop lastEnd
  | e :: es =>
    (text.drop lastEnd).take (e.start - lastEnd) ++ tagOf glossary e ++
      maskGo glossary text e.stop es

/-- `mask(text, entities)` on the full text. -/
def maskChars (glossary : List (String × String)) (text : List Char)
    (es : List Span) : List Char :=
  maskGo glossary text 0 es

/-- The characters of `text` lying outside the selected spans, in order
(the regions `text[last_end:start]` and the trailing `text[last_end:]`). -/
def unmasked (text : List Char) (lastEnd : Nat) : List Span → List Char
  | [] => text.drop lastEnd
  | e :: es => (text.drop lastEnd).take (e.start - lastEnd) ++ unmasked text e.stop es

/-- The spans form a start-ordered, non-overlapping selection lying inside the
text, starting no earlier than the cursor `lastEnd`. -/
def spansWithin (text : List Char) : Nat → List Span → Bool
  | lastEnd, [] => decide (lastEnd ≤ text.length)
  | lastEnd, e :: es =>
    decide (lastEnd ≤ e.start) && decide (e.start ≤ e.stop) && spansWithin text e.stop es

theorem spansWithin_le {text : List Char} :
    ∀ {es : List Span} {lastEnd : Nat}, spansWithin text lastEnd es = true →
      lastEnd ≤ text.length := by
  intro es
  induction es with
  | nil =>
    intro lastEnd h
    simpa [spansWithin] using h
  | cons e es ih =>
    intro lastEnd h
    simp only [spansWithin, Bool.and_eq_true, decide_eq_true_eq] at h
    obtain ⟨⟨h1, h2⟩, h3⟩ := h
    exact le_trans h1 (le_trans h2 (ih h3))

theorem maskGo_length (glossary : List (String × String)) (text : List Char) :
    ∀ (es : List Span) (lastEnd : Nat), spansWithin text lastEnd es = true →
      (maskGo glossary text lastEnd es).length +
          (es.map (fun e => e.stop - e.start)).sum =
        (text.length - lastEnd) + (es.map (fun e => (tagOf glossary e).length)).sum := by
  intro es
  induction es with
  | nil =>
    intro lastEnd h
    simp only [spansWithin, decide_eq_true_eq] at h
    simp [maskGo]
  | cons e es ih =>
    intro lastEnd h
    simp only [spansWithin, Bool.and_eq_true, decide_eq_true_eq] at h
    obtain ⟨⟨h1, h2⟩, h3⟩ := h
    have hstop : e.stop ≤ text.length := spansWithin_le h3
    have := ih e.stop h3
    simp only [maskGo, List.map_cons, List.sum_cons, List.length_append,
      List.length_take, List.length_drop]
    have hmin : min (e.start - lastEnd) (text.length - lastEnd) = e.start - lastEnd :=
      Nat.min_eq_left (by omega)
    omega

theorem unmasked_sublist_maskGo (glossary : List (String × String)) (text : List Char) :
    ∀ (es : List Span) (lastEnd : Nat),
      List.Sublist (unmasked text lastEnd es) (maskGo glossary text lastEnd es) := by
  intro es
  induction es with
  | nil => intro lastEnd; simp [unmasked, maskGo]
  | cons e es ih =>
    intro lastEnd
    simp only [unmasked, maskGo]
    rw [List.append_assoc]
    refine List.Sublist.append (List.Sublist.refl _) ?_
    exact (ih e.stop).trans (List.sublist_append_right _ _)

/-- Python values as they appear in recommendation payloads and parsed JSON:
`None`, strings, booleans, ints, floats (`Option ℚ`, where `Option.none`
models `nan`/`inf`), lists and string-keyed dicts (association lists in
insertion order, as Python dicts preserve insertion order). -/
inductive PyVal where
  | none
  | str (s : String)
  | bool (b : Bool)
  | int (n : ℤ)
  | float (q : Option ℚ)
  | list (xs : List PyVal)
  | dict (kvs : List (String × PyVal))

mutual

/-- `json_safe` from `core/util.py` lines 7-23: `None`, `str`, `bool`, `int`
pass through; a float that is `nan`/`inf` becomes `None`; dicts and lists
recurse.  (The numpy scalar and fallback-`str` branches coincide with the
`int`/`float`/`str` cases in this value model.) -/
def jsonSafe : PyVal → PyVal
  | .none => .none
  | .str s => .str s
  | .bool b => .bool b
  | .int n => .int n
  | .float Option.none => .none
  | .float (some q) => .float (some q)
  | .list xs => .list (jsonSafeList xs)
  | .dict kvs => .dict (jsonSafeKVs kvs)

/-- `json_safe` mapped over a list value. -/
def jsonSafeList : List PyVal → List PyVal
  | [] => []
  | x :: xs => jsonSafe x :: jsonSafeList xs

/-- `json_safe` mapped over the entries of a dict value. -/
def jsonSafeKVs : List (String × PyVal) → List (String × PyVal)
  | [] => []
  | (k, v) :: kvs => (k, jsonSafe v) :: jsonSafeKVs kvs

end

/-- The literal fallback text written by `serialize_recommendation`
(`core/util.py` line 34) when the decision-maker output lacks a column. -/
def noLlmRecMsg : String := "We don t have recommendation for this column"

/-- The `"llm"` field chosen for column `k`: the decision-maker entry when
present, else the literal fallback string (`core/util.py` lines 31-34). -/
def llmFieldOf (llm : List (String × PyVal)) (k : String) : PyVal :=
  match llm.lookup k with
  | some w => jsonSafe w
  | Option.none => .str noLlmRecMsg

/-- `serialize_recommendation(rec, llm_output)` from `core/util.py` lines
25-35: one output entry per key of `rec`, in order, each a dict with a
`"manual"` field (the rule-based recommendations) and an `"llm"` field. -/
def serializeRecommendation (rec llm : List (String × PyVal)) :
    List (String × PyVal) :=
  rec.map (fun kv =>
    (kv.1, PyVal.dict [("manual", jsonSafe kv.2), ("llm", llmFieldOf llm kv.1)]))

/-- JSON insignificant whitespace (also what matters for `str.strip` on the
responses considered here). -/
def isWsChar (c : Char) : Bool :=
  c = ' ' || c = '\t' || c = '\n' || c = '\r' || c = '\x0b' || c = '\x0c'

/-- Skip insignificant whitespace. -/
def skipWs (cs : List Char) : List Char := cs.dropWhile isWsChar

/-- Python `str.strip()`. -/
def trimChars (cs : List Char) : List Char :=
  ((cs.dropWhile isWsChar).reverse.dropWhile isWsChar).reverse

/-- JSON string-escape characters (`\uXXXX` escapes are not needed by any
response considered in the theorems and make the parse fail). -/
def escChar (c : Char) : Option Char :=
  if c = '"' then some '"'
  else if c = '\\' then some '\\'
  else if c = '/' then some '/'
  else if c = 'n' then some '\n'
  else if c = 't' then some '\t'
  else if c = 'r' then some '\r'
  else if c = 'b' then some '\x08'
  else if c = 'f' then some '\x0c'
  else Option.none

/-- Parse the body of a JSON string (after the opening quote), returning the
decoded characters and the remainder after the closing quote. -/
def parseStringBody : List Char → Option (List Char × List Char)
  | [] => Option.none
  | '"' :: r => some ([], r)
  | '\\' :: e :: r =>
    match escChar e with
    | some c => (parseStringBody r).map (fun p => (c :: p.1, p.2))
    | Option.none => Option.none
  | c :: r => (parseStringBody r).map (fun p => (c :: p.1, p.2))

/-- Digits of a char list as a natural number (most significant first). -/
def digitsToNat (ds : List Char) : Nat :=
  ds.foldl (fun a c => a * 10 + (c.toNat - '0'.toNat)) 0

/-- Exponent part of a JSON number (after `e`/`E`). -/
def finishExp (neg : Bool) (base : ℚ) (cs : List Char) : Option (PyVal × List Char) :=
  let p : Bool × List Char := match cs with
    | '+' :: r => (false, r)
    | '-' :: r => (true, r)
    | _ => (false, cs)
  let q := p.2.span (fun c => c.isDigit)
  if q.1 = [] then Option.none
  else
    let scaled : ℚ :=
      if p.1 then base / ((10 : ℚ) ^ digitsToNat q.1)
      else base * ((10 : ℚ) ^ digitsToNat q.1)
    some (.float (some (if neg then -scaled else scaled)), q.2)

/-- Integer-or-float decision after the mantissa of a JSON number. -/
def finishNumber (neg : Bool) (d1 : List Char) (frac : Option (List Char))
    (cs : List Char) : Option (PyVal × List Char) :=
  let base : ℚ := match frac with
    | Option.none => (digitsToNat d1 : ℚ)
    | some d2 => (digitsToNat d1 : ℚ) + (digitsToNat d2 : ℚ) / ((10 : ℚ) ^ d2.length)
  match cs with
  | 'e' :: r => finishExp neg base r
  | 'E' :: r => finishExp neg base r
  | _ =>
    match frac with
    | Option.none =>
      some (.int (if neg then -(digitsToNat d1 : ℤ) else (digitsToNat d1 : ℤ)), cs)
    | some _ => some (.float (some (if neg then -base else base)), cs)

/-- Parse a JSON number per `json.loads` (optional minus, `0` or a nonzero-led
digit run, optional fraction digits, optional exponent); integers without
fraction or exponent stay Python ints, otherwise floats. -/
def parseNumberJson (cs : List Char) : Option (PyVal × List Char) :=
  let p : Bool × List Char := match cs with
    | '-' :: r => (true, r)
    | _ => (false, cs)
  let q1 := p.2.span (fun c => c.isDigit)
  if q1.1 = [] then Option.none
  else if 2 ≤ q1.1.length ∧ q1.1.headI = '0' then Option.none
  else
    match q1.2 with
    | '.' :: r =>
      let q2 := r.span (fun c => c.isDigit)
      if q2.1 = [] then Option.none
      else finishNumber p.1 q1.1 (some q2.1) q2.2
    | _ => finishNumber p.1 q1.1 Option.none q1.2

mutual

/-- Parse one JSON value (fueled recursive-descent; fuel exceeding the input
length never runs out). -/
def parseVal (fuel : Nat) (cs : List Char) : Option (PyVal × List Char) :=
  match fuel with
  | 0 => Option.none
  | fuel + 1 =>
    match skipWs cs with
    | '{' :: rest =>
      match skipWs rest with
      | '}' :: r => some (.dict [], r)
      | _ => parseObjLoop fuel rest []
    | '[' :: rest =>
      match skipWs rest with
      | ']' :: r => some (.list [], r)
      | _ => parseArrLoop fuel rest []
    | '"' :: rest => (parseStringBody rest).map (fun p => (.str (String.mk p.1), p.2))
    | 't' :: 'r' :: 'u' :: 'e' :: r => some (.bool true, r)
    | 'f' :: 'a' :: 'l' :: 's' :: 'e' :: r => some (.bool false, r)
    | 'n' :: 'u' :: 'l' :: 'l' :: r => some (.none, r)
    | cs' => parseNumberJson cs'

/-- Parse the members of a JSON object after `{` (at least one member). -/
def parseObjLoop (fuel : Nat) (cs : List Char) (acc : List (String × PyVal)) :
    Option (PyVal × List Char) :=
  match fuel with
  | 0 => Option.none
  | fuel + 1 =>
    match skipWs cs with
    | '"' :: rest =>
      match parseStringBody rest with
      | Option.none => Option.none
      | some (k, r1) =>
        match skipWs r1 with
        | ':' :: r2 =>
          match parseVal fuel r2 with
          | Option.none => Option.none
          | some (v, r3) =>
            match skipWs r3 with
            | ',' :: r4 => parseObjLoop fuel r4 (acc ++ [(String.mk k, v)])
            | '}' :: r4 => some (.dict (acc ++ [(String.mk k, v)]), r4)
            | _ => Option.none
        | _ => Option.none
    | _ => Option.none

/-- Parse the elements of a JSON array after `[` (at least one element). -/
def parseArrLoop (fuel : Nat) (cs : List Char) (acc : List PyVal) :
    Option (PyVal × List Char) :=
  match fuel with
  | 0 => Option.none
  | fuel + 1 =>
    match parseVal fuel cs with
    | Option.none => Option.none
    | some (v, r1) =>
      match skipWs r1 with
      | ',' :: r2 => parseArrLoop fuel r2 (acc ++ [v])
      | ']' :: r2 => some (.list (acc ++ [v]), r2)
      | _ => Option.none

end

/-- `json.loads` on a character list: parse one value and require only
whitespace afterwards. -/
def jsonLoadsChars (cs : List Char) : Option PyVal :=
  match parseVal (cs.length + 2) cs with
  | some (v, rest) => if skipWs rest = [] then some v else Option.none
  | Option.none => Option.none

/-- Python `str.rfind(c)` as an optional index. -/
def lastIdxOf (c : Char) (cs : List Char) : Option Nat :=
  match cs.reverse.findIdx? (fun x => x = c) with
  | some k => some (cs.length - 1 - k)
  | Option.none => Option.none

/-- Response cleaning in `recommend_actions` (`core/recommendation.py` lines
423-427): strip the raw text, then if both a `\x7b` and a `\x7d` occur, keep
the substring from the FIRST `\x7b` to the LAST `\x7d` (`find`/`rfind`). -/
def extractCleaned (s : String) : List Char :=
  let cs := trimChars s.data
  match cs.findIdx? (fun c => c = '{'), lastIdxOf '}' cs with
  | some i, some j => (cs.drop i).take (j + 1 - i)
  | _, _ => cs

/-- Plan parsing in `recommend_actions` (`core/recommendation.py` lines
422-436): `json.loads` of the cleaned text when non-empty; any parse failure,
a non-`str` response, or a non-dict result yields the empty plan. -/
def parsePlan (raw : Option String) : List (String × PyVal) :=
  match raw with
  | Option.none => []
  | some s =>
    if extractCleaned s = [] then []
    else
      match jsonLoadsChars (extractCleaned s) with
      | some (.dict kvs) => kvs
      | _ => []

/-- Scan for the shortest prefix (from the current position) balancing its
braces, accumulating characters; depth counts unclosed `\x7b`. -/
def balGo : Nat → List Char → List Char → Option (List Char)
  | _, [], _ => Option.none
  | d, c :: r, acc =>
    if c = '}' ∧ d = 1 then some (acc ++ [c])
    else
      let d' := if c = '{' then d + 1 else if c = '}' then d - 1 else d
      balGo d' r (acc ++ [c])

/-- The first top-level balanced `\x7b...\x7d` block of a text, if any. -/
def firstBalanced (cs : List Char) : Option (List Char) :=
  match cs.findIdx? (fun c => c = '{') with
  | some i => balGo 0 (cs.drop i) []
  | Option.none => Option.none

/-- The claim's reading of the plan extraction, stated in the spec's words
(for comparison with `parsePlan`, which embeds the source): parse the FIRST
top-level balanced `\x7b...\x7d` JSON object of the untrusted text; any
failure yields the empty plan. -/
def specFirstBalancedPlan (raw : Option String) : List (String × PyVal) :=
  match raw with
  | Option.none => []
  | some s =>
    match firstBalanced (trimChars s.data) with
    | some t =>
      match jsonLoadsChars t with
      | some (.dict kvs) => kvs
      | _ => []
    | Option.none => []

/-- The return value of `recommend_actions` (`core/recommendation.py` line
445) as a function of the grouped rule-based recommendations and the raw
decision-maker response: serialize the grouped candidates against the parsed
plan.  (The log writing on lines 438-444 has no effect on the result.) -/
def recommendActionsResult (grouped : List (String × PyVal))
    (raw : Option String) : List (String × PyVal) :=
  serializeRecommendation grouped (parsePlan raw)

/-- Mean of a list of rationals (`Series.mean` over the non-NaN entries). -/
def listMean (l : List ℚ) : ℚ := l.sum / l.length

/-- Ascending sort of rationals. -/
def sortQ (l : List ℚ) : List ℚ := l.insertionSort (fun a b => a ≤ b)

/-- `Series.median`: middle element of the sorted values, or the average of
the two middle elements for an even count. -/
def listMedian (l : List ℚ) : ℚ :=
  let s := sortQ l
  if l.length % 2 = 1 then s.getD (l.length / 2) 0
  else (s.getD (l.length / 2 - 1) 0 + s.getD (l.length / 2) 0) / 2

/-- `Series.max` over non-NaN entries (junk 0 on an empty list, which no
caller reaches). -/
def listMax : List ℚ → ℚ
  | [] => 0
  | x :: xs => xs.foldl max x

/-- `Series.min` over non-NaN entries (junk 0 on an empty list, which no
caller reaches). -/
def listMin : List ℚ → ℚ
  | [] => 0
  | x :: xs => xs.foldl min x

/-- Python string comparison: lexicographic on code points. -/
def listLtB : List Char → List Char → Bool
  | [], [] => false
  | [], _ :: _ => true
  | _ :: _, [] => false
  | a :: as, b :: bs =>
    if a.toNat < b.toNat then true
    else if b.toNat < a.toNat then false
    else listLtB as bs

/-- Python `a < b` on strings. -/
def strLtB (a b : String) : Bool := listLtB a.data b.data

/-- `Series.mode(dropna=True).iloc[0]`: pandas returns the most frequent
values sorted ascending, so `iloc[0]` is the smallest most-frequent value;
`Option.none` when there are no values (the `except` branch). -/
def modeStr (l : List String) : Option String :=
  let maxCount := (l.map (fun v => l.count v)).foldl max 0
  match l.filter (fun v => l.count v = maxCount) with
  | [] => Option.none
  | c :: cs => some (cs.foldl (fun a b => if strLtB b a then b else a) c)

/-- A dataframe column as seen by `analyze_table_na`: the dtype test
`str(df[column].dtype) in ["float64", "int64", "Float64", "Int64"]`
distinguishes numeric columns from all others; missing cells are `NaN`. -/
inductive NaCol where
  | num (cells : List (Option ℚ))
  | txt (cells : List (Option String))

/-- Candidate fill values offered by the missing-value rule
(`core/recommendation.py` lines 140-152). -/
inductive Filling where
  | numStats (mean median hi lo : ℚ)
  | modeOf (m : Option String)
deriving DecidableEq

/-- The action of a missing-value recommendation. -/
inductive NaAction where
  | fill (f : Filling)
  | drop
deriving DecidableEq

/-- `NA_THRESHOLD = 0.6` (`core/recommendation.py` line 45). -/
def NA_THRESHOLD : ℚ := 3 / 5

/-- Cell count of a column. -/
def naLength : NaCol → Nat
  | .num cells => cells.length
  | .txt cells => cells.length

/-- Missing-cell count of a column (`df[column].isnull()`). -/
def naMissing : NaCol → Nat
  | .num cells => cells.countP (fun c => c.isNone)
  | .txt cells => cells.countP (fun c => c.isNone)

/-- The candidate fill values: mean/median/max/min over the non-missing
values for numeric dtypes, the mode for all other dtypes. -/
def ruleFilling : NaCol → Filling
  | .num cells =>
    let xs := cells.filterMap id
    .numStats (listMean xs) (listMedian xs) (listMax xs) (listMin xs)
  | .txt cells => .modeOf (modeStr (cells.filterMap id))

/-- The missing-value rule of `analyze_table_na` for one column
(`core/recommendation.py` lines 130-165): skip at 0% missing, recommend
`fill` strictly below the threshold, else recommend `drop`.  For an empty
column the pandas percentage is `NaN`, which fails both the `== 0` and the
`0 < . < 0.6` comparisons, hence the `n ≠ 0` guards. -/
def analyzeTableNaCol (col : NaCol) : Option NaAction :=
  if naLength col ≠ 0 ∧ (naMissing col : ℚ) / (naLength col : ℚ) = 0 then Option.none
  else if naLength col ≠ 0 ∧ 0 < (naMissing col : ℚ) / (naLength col : ℚ) ∧
      (naMissing col : ℚ) / (naLength col : ℚ) < NA_THRESHOLD then
    some (.fill (ruleFilling col))
  else some .drop

/-- Round-half-even to an integer, as Python's `round`. -/
def roundHalfEven (q : ℚ) : ℤ :=
  if q - ⌊q⌋ < 1 / 2 then ⌊q⌋
  else if 1 / 2 < q - ⌊q⌋ then ⌊q⌋ + 1
  else if ⌊q⌋ % 2 = 0 then ⌊q⌋ else ⌊q⌋ + 1

/-- Python's `round(x, 2)` (idealized over rationals). -/
def round2 (q : ℚ) : ℚ := (roundHalfEven (q * 100) : ℚ) / 100

/-- A dataframe for quality analysis: named columns, rows of optional string
cells (a missing entry is `NaN`). -/
structure QDf where
  headers : List String
  rows : List (List (Option String))

/-- The cells of column `j`. -/
def colCells (df : QDf) (j : Nat) : List (Option String) :=
  df.rows.map (fun r => r.getD j Option.none)

/-- The non-null cells of column `j` (`dropna`). -/
def nonNullCells (df : QDf) (j : Nat) : List String :=
  (colCells df j).filterMap id

/-- Per-column completeness percentage (`comp`, `core/data_quality.py`
line 28): `round((non_null_count / len(df)) * 100, 2)`. -/
def compPct (df : QDf) (j : Nat) : ℚ :=
  round2 (((nonNullCells df j).length : ℚ) / df.rows.length * 100)

/-- Count of rows that duplicate an earlier row (`df.duplicated().sum()`,
which marks every occurrence after the first). -/
def dupCountGo : List (List (Option String)) → List (List (Option String)) → Nat
  | _, [] => 0
  | seen, r :: rs => (if r ∈ seen then 1 else 0) + dupCountGo (r :: seen) rs

/-- `df.duplicated().sum()` over all rows. -/
def dupCount (rows : List (List (Option String))) : Nat := dupCountGo [] rows

/-- `duplicate_percentage` (`core/data_quality.py` line 44). -/
def dupPct (df : QDf) : ℚ :=
  round2 ((dupCount df.rows : ℚ) / df.rows.length * 100)

/-- Per-column `invalid_percentage` of `cons` (`core/data_quality.py`
line 170), abstracting the header-keyword regex dispatch into a validity
predicate `validOf header cell` (identically true for the general-text and
numeric branches, which leave `invalid_count = 0`). -/
def invalidPct (validOf : String → String → Bool) (df : QDf) (j : Nat) : ℚ :=
  if (nonNullCells df j).length = 0 then 0
  else round2 (((nonNullCells df j).countP
      (fun c => ! validOf (df.headers.getD j "") c) : ℚ) / (nonNullCells df j).length * 100)

/-- `completeness_score`: mean of the per-column completeness percentages,
`0` when there are no columns (`core/data_quality.py` line 236). -/
def compAvg (df : QDf) : ℚ :=
  if (List.range df.headers.length).map (compPct df) = [] then 0
  else ((List.range df.headers.length).map (compPct df)).sum /
    ((List.range df.headers.length).map (compPct df)).length

/-- `duplicates_score = max(0, 100 - duplicate_penalty)`
(`core/data_quality.py` line 239). -/
def dupScore (df : QDf) : ℚ := max 0 (100 - dupPct df)

/-- `consistency_score`: mean of per-column `max(0, 100 - invalid_percentage)`,
`0` when there are no columns (`core/data_quality.py` lines 241-245). -/
def consAvg (validOf : String → String → Bool) (df : QDf) : ℚ :=
  if (List.range df.headers.length).map (fun j => max 0 (100 - invalidPct validOf df j)) = [] then 0
  else ((List.range df.headers.length).map (fun j => max 0 (100 - invalidPct validOf df j))).sum /
    ((List.range df.headers.length).map (fun j => max 0 (100 - invalidPct validOf df j))).length

/-- The claim's consistency average, without the clamp: mean of per-column
`100 - invalid_percentage`. -/
def consAvgNoClamp (validOf : String → String → Bool) (df : QDf) : ℚ :=
  if (List.range df.headers.length).map (fun j => 100 - invalidPct validOf df j) = [] then 0
  else ((List.range df.headers.length).map (fun j => 100 - invalidPct validOf df j)).sum /
    ((List.range df.headers.length).map (fun j => 100 - invalidPct validOf df j)).length

/-- The quality categorization thresholds (`core/data_quality.py`
lines 256-265), applied to the unrounded overall score. -/
def scoreCategory (o : ℚ) : String :=
  if 90 ≤ o then "Excellent"
  else if 75 ≤ o then "Good"
  else if 60 ≤ o then "Fair"
  else if 40 ≤ o then "Poor"
  else "Critical"

/-- The reported overall score and category. -/
structure QualityScore where
  overall : ℚ
  category : String
deriving DecidableEq

/-- `data_quality_score` (`core/data_quality.py` lines 226-276): hardcoded
`(0, "Poor")` for an empty dataframe, otherwise the weighted combination
`0.4 / 0.3 / 0.3` of the three component scores, rounded to 2 decimals. -/
def dataQualityScore (validOf : String → String → Bool) (df : QDf) : QualityScore :=
  if df.rows.length = 0 then ⟨0, "Poor"⟩
  else
    let o := compAvg df * (4 / 10) + dupScore df * (3 / 10) + consAvg validOf df * (3 / 10)
    ⟨round2 o, scoreCategory o⟩

theorem roundHalfEven_bounds {q : ℚ} {n : ℤ} (h0 : 0 ≤ q) (hn : q ≤ (n : ℚ)) :
    0 ≤ roundHalfEven q ∧ roundHalfEven q ≤ n := by
  unfold roundHalfEven
  have hf0 : (0 : ℤ) ≤ ⌊q⌋ := Int.floor_nonneg.mpr h0
  have hfn : ⌊q⌋ ≤ n := by
    have := Int.floor_le_floor hn
    simpa using this
  have hfr : (⌊q⌋ : ℚ) ≤ q := Int.floor_le q
  split_ifs with h1 h2 h3
  · exact ⟨hf0, hfn⟩
  · refine ⟨by omega, ?_⟩
    by_contra hc
    push_neg at hc
    have hfeq : ⌊q⌋ = n := le_antisymm hfn (by omega)
    rw [hfeq] at h2
    have : q - (n : ℚ) ≤ 0 := by linarith
    linarith
  · exact ⟨hf0, hfn⟩
  · refine ⟨by omega, ?_⟩
    have hr : q - ⌊q⌋ = 1 / 2 := le_antisymm (not_lt.mp h2) (not_lt.mp h1)
    have hlt : (⌊q⌋ : ℚ) < (n : ℚ) := by linarith
    have : ⌊q⌋ < n := by exact_mod_cast hlt
    omega

theorem round2_bounds {q : ℚ} (h0 : 0 ≤ q) (h100 : q ≤ 100) :
    0 ≤ round2 q ∧ round2 q ≤ 100 := by
  unfold round2
  have h := roundHalfEven_bounds (q := q * 100) (n := 10000)
    (by nlinarith) (by push_cast; nlinarith)
  have hl : (0 : ℚ) ≤ (roundHalfEven (q * 100) : ℚ) := by exact_mod_cast h.1
  have hu : (roundHalfEven (q * 100) : ℚ) ≤ 10000 := by exact_mod_cast h.2
  constructor
  · linarith
  · linarith

theorem ratio_pct_bounds {a b : Nat} (hab : a ≤ b) :
    0 ≤ (a : ℚ) / b * 100 ∧ (a : ℚ) / b * 100 ≤ 100 := by
  rcases Nat.eq_zero_or_pos b with hb | hb
  · subst hb
    have : a = 0 := Nat.le_zero.mp hab
    subst this
    norm_num
  · have hbq : (0 : ℚ) < b := by exact_mod_cast hb
    have haq : (a : ℚ) ≤ b := by exact_mod_cast hab
    have h1 : (a : ℚ) / b ≤ 1 := (div_le_one hbq).mpr haq
    have h2 : (0 : ℚ) ≤ (a : ℚ) / b := div_nonneg (by positivity) (le_of_lt hbq)
    constructor <;> nlinarith

theorem compPct_bounds (df : QDf) (j : Nat) :
    0 ≤ compPct df j ∧ compPct df j ≤ 100 := by
  unfold compPct
  have hle : (nonNullCells df j).length ≤ df.rows.length := by
    have h1 : (nonNullCells df j).length ≤ (colCells df j).length :=
      List.length_filterMap_le _ _
    simpa [colCells] using h1
  obtain ⟨h0, h1⟩ := ratio_pct_bounds hle
  exact round2_bounds h0 h1

theorem dupCountGo_le (rs seen : List (List (Option String))) :
    dupCountGo seen rs ≤ rs.length := by
  induction rs generalizing seen with
  | nil => simp [dupCountGo]
  | cons r rs ih =>
    simp only [dupCountGo, List.length_cons]
    have := ih (r :: seen)
    split_ifs <;> omega

theorem dupPct_bounds (df : QDf) : 0 ≤ dupPct df ∧ dupPct df ≤ 100 := by
  unfold dupPct dupCount
  obtain ⟨h0, h1⟩ := ratio_pct_bounds (dupCountGo_le df.rows [])
  exact round2_bounds h0 h1

theorem invalidPct_bounds (validOf : String → String → Bool) (df : QDf) (j : Nat) :
    0 ≤ invalidPct validOf df j ∧ invalidPct validOf df j ≤ 100 := by
  unfold invalidPct
  split_ifs with h
  · norm_num
  · obtain ⟨h0, h1⟩ := ratio_pct_bounds
      (List.countP_le_length (l := nonNullCells df j)
        (p := fun c => ! validOf (df.headers.getD j "") c))
    exact round2_bounds h0 h1

theorem avg_bounds {l : List ℚ} (h : ∀ x ∈ l, 0 ≤ x ∧ x ≤ 100) :
    0 ≤ (if l = [] then 0 else l.sum / l.length) ∧
      (if l = [] then 0 else l.sum / l.length) ≤ 100 := by
  split_ifs with hl
  · norm_num
  · have hlen : 0 < l.length := List.length_pos.mpr hl
    have hlenq : (0 : ℚ) < l.length := by exact_mod_cast hlen
    have hsum0 : 0 ≤ l.sum := List.sum_nonneg (fun x hx => (h x hx).1)
    have hsum1 : l.sum ≤ l.length • (100 : ℚ) :=
      List.sum_le_card_nsmul l 100 (fun x hx => (h x hx).2)
    rw [nsmul_eq_mul] at hsum1
    constructor
    · exact div_nonneg hsum0 (le_of_lt hlenq)
    · rw [div_le_iff₀ hlenq]
      linarith

theorem dupScore_eq (df : QDf) : dupScore df = 100 - dupPct df := by
  unfold dupScore
  have := (dupPct_bounds df).2
  exact max_eq_right (by linarith)

theorem consAvg_eq (validOf : String → String → Bool) (df : QDf) :
    consAvg validOf df = consAvgNoClamp validOf df := by
  unfold consAvg consAvgNoClamp
  have hmap : (List.range df.headers.length).map
      (fun j => max 0 (100 - invalidPct validOf df j)) =
      (List.range df.headers.length).map (fun j => 100 - invalidPct validOf df j) := by
    refine List.map_congr_left ?_
    intro j hj
    have := (invalidPct_bounds validOf df j).2
    exact max_eq_right (by linarith)
  rw [hmap]

theorem compAvg_bounds (df : QDf) : 0 ≤ compAvg df ∧ compAvg df ≤ 100 := by
  unfold compAvg
  refine avg_bounds ?_
  intro x hx
  obtain ⟨j, hj, rfl⟩ := List.mem_map.mp hx
  exact compPct_bounds df j

theorem consAvg_bounds (validOf : String → String → Bool) (df : QDf) :
    0 ≤ consAvg validOf df ∧ consAvg validOf df ≤ 100 := by
  unfold consAvg
  refine avg_bounds ?_
  intro x hx
  obtain ⟨j, hj, rfl⟩ := List.mem_map.mp hx
  have h0 := (invalidPct_bounds validOf df j).1
  constructor
  · exact le_max_left 0 _
  · exact max_le (by norm_num) (by linarith)

theorem dupScore_bounds (df : QDf) : 0 ≤ dupScore df ∧ dupScore df ≤ 100 := by
  have h := dupPct_bounds df
  unfold dupScore
  constructor
  · exact le_max_left 0 _
  · exact max_le (by norm_num) (by linarith [h.1])

/-- A pandas cell in the steward dataframe: missing (`NaN`), a string, or a
number (strings become numbers through fills and coercions). -/
inductive CellV where
  | na
  | s (v : String)
  | q (v : ℚ)
deriving DecidableEq

/-- Missing test (`pd.isna`). -/
def isNaCell : CellV → Bool
  | .na => true
  | _ => false

/-- Python `str()` of a cell (`str(nan) = "nan"`; the rendering of rational
numbers is idealized, no claim depends on it). -/
def cellStr : CellV → String
  | .na => "nan"
  | .s v => v
  | .q v => toString v

/-- Exponent suffix of a Python-parsed number (after `e`/`E`; signed digits,
nothing else). -/
def parseExpDigits (base : ℚ) (cs : List Char) : Option ℚ :=
  let p : Bool × List Char := match cs with
    | '-' :: r => (true, r)
    | '+' :: r => (false, r)
    | _ => (false, cs)
  let q := p.2.span (fun c => c.isDigit)
  if q.1 = [] ∨ q.2 ≠ [] then Option.none
  else some (if p.1 then base / 10 ^ digitsToNat q.1 else base * 10 ^ digitsToNat q.1)

/-- After a decimal mantissa: end of input, or an exponent. -/
def parseExpTail (base : ℚ) (cs : List Char) : Option ℚ :=
  match cs with
  | [] => some base
  | 'e' :: r => parseExpDigits base r
  | 'E' :: r => parseExpDigits base r
  | _ => Option.none

/-- Unsigned decimal mantissa `digits`, `digits.digits`, `.digits` or
`digits.`, with optional exponent. -/
def parseDecCore (cs : List Char) : Option ℚ :=
  let q1 := cs.span (fun c => c.isDigit)
  match q1.2 with
  | '.' :: r =>
    let q2 := r.span (fun c => c.isDigit)
    if q1.1 = [] ∧ q2.1 = [] then Option.none
    else parseExpTail ((digitsToNat q1.1 : ℚ) + (digitsToNat q2.1 : ℚ) / 10 ^ q2.1.length) q2.2
  | _ =>
    if q1.1 = [] then Option.none
    else parseExpTail (digitsToNat q1.1 : ℚ) q1.2

/-- `pd.to_numeric(·, errors="coerce")` / Python `float()` on a string:
optional surrounding whitespace and sign, then a decimal number. -/
def parseNumeric (x : String) : Option ℚ :=
  let cs := trimChars x.data
  let p : Bool × List Char := match cs with
    | '-' :: r => (true, r)
    | '+' :: r => (false, r)
    | _ => (false, cs)
  match parseDecCore p.2 with
  | some v => some (if p.1 then -v else v)
  | Option.none => Option.none

/-- Python `int()` on a string: optional surrounding whitespace, sign, and
nothing but digits. -/
def parseIntPy (x : String) : Option ℚ :=
  let cs := trimChars x.data
  let p : Bool × List Char := match cs with
    | '-' :: r => (true, r)
    | '+' :: r => (false, r)
    | _ => (false, cs)
  let q := p.2.span (fun c => c.isDigit)
  if q.1 = [] ∨ q.2 ≠ [] then Option.none
  else some (if p.1 then -(digitsToNat q.1 : ℚ) else (digitsToNat q.1 : ℚ))

/-- `to_number_if_possible` (`core/data_steward.py` lines 13-25) on a string:
`float(x)` when the string contains a dot, else `int(x)`; on failure the
string itself is returned. -/
def toNumberIfPossible (x : String) : CellV :=
  if x.data.contains '.' then
    match parseNumeric x with
    | some v => .q v
    | Option.none => .s x
  else
    match parseIntPy x with
    | some v => .q v
    | Option.none => .s x

/-- `pd.to_numeric(series, errors="coerce")` on one cell: `NaN` stays `NaN`,
numbers pass through, strings parse or coerce to `NaN`. -/
def cellToNum : CellV → Option ℚ
  | .na => Option.none
  | .q v => some v
  | .s v => parseNumeric v

/-- `series.fillna(v)` on one cell. -/
def fillNaWith (v : CellV) : CellV → CellV
  | .na => v
  | c => c

/-- Ordering used by pandas when sorting mode candidates (numbers and strings
never mix in the columns the claims touch). -/
def cellLtB : CellV → CellV → Bool
  | .q a, .q b => a < b
  | .s a, .s b => strLtB a b
  | .q _, .s _ => true
  | _, _ => false

/-- `series.mode(dropna=True).iloc[0]` over non-missing cells: the smallest
most-frequent value, `Option.none` when the list is empty. -/
def modeCell (l : List CellV) : Option CellV :=
  let maxCount := (l.map (fun v => l.count v)).foldl max 0
  match l.filter (fun v => l.count v = maxCount) with
  | [] => Option.none
  | c :: cs => some (cs.foldl (fun a b => if cellLtB b a then b else a) c)

/-- Count of cells that `to_numeric` parses (`try_num.notna().sum()`). -/
def numParseCount (cells : List CellV) : Nat :=
  cells.countP (fun c => (cellToNum c).isSome)

/-- The fill action of `apply_recommendations` (`core/data_steward.py` lines
129-153).  `numeric_ratio = try_num.notna().mean()` divides by the FULL
column length (missing cells included).  The statistic branch fires for
`choice ∈ mean/median/max/min` with ratio strictly above one half; the mode
branch fills with the most frequent non-missing value (empty string when
there is none); otherwise the choice is number-coerced and used literally.
(`fillna(None)` would raise in pandas; the schema always carries a string
here, so a missing choice is modelled as the identity.) -/
def applyFill (cells : List CellV) (choice : Option String) : List CellV :=
  if (choice = some "mean" ∨ choice = some "median" ∨ choice = some "max" ∨
        choice = some "min") ∧
      (numParseCount cells : ℚ) / cells.length > 1 / 2 then
    let xs := cells.filterMap cellToNum
    let v : ℚ :=
      if choice = some "mean" then listMean xs
      else if choice = some "median" then listMedian xs
      else if choice = some "max" then listMax xs
      else listMin xs
    cells.map (fillNaWith (.q v))
  else if choice = some "mode" then
    match modeCell (cells.filter (fun c => ! isNaCell c)) with
    | some m => cells.map (fillNaWith m)
    | Option.none => cells.map (fillNaWith (.s ""))
  else
    match choice with
    | some str => cells.map (fillNaWith (toNumberIfPossible str))
    | Option.none => cells

/-- A dash-or-slash separator of `_DATE_RE`. -/
def isSepChar (c : Char) : Bool := c = '-' || c = '/'

/-- The anchored core of `_DATE_RE` (`core/data_steward.py` lines 55-62)
after stripping the surrounding whitespace that `\s*` allows:
four digits, sep, one or two digits, optionally sep and one or two digits;
or one or two digits, sep, one or two digits, sep, four digits; or
four digits alone (sep is `-` or `/`, independently at each position). -/
def dateCore (cs : List Char) : Bool :=
  let q1 := cs.span (fun c => c.isDigit)
  match q1.2 with
  | [] => decide (q1.1.length = 4)
  | c :: r2 =>
    isSepChar c &&
      (let q2 := r2.span (fun c => c.isDigit)
       match q2.2 with
       | [] => decide (q1.1.length = 4 ∧ 1 ≤ q2.1.length ∧ q2.1.length ≤ 2)
       | c2 :: r4 =>
         isSepChar c2 &&
           (let q3 := r4.span (fun c => c.isDigit)
            decide (q3.2 = []) &&
              (decide (q1.1.length = 4 ∧ 1 ≤ q2.1.length ∧ q2.1.length ≤ 2 ∧
                  1 ≤ q3.1.length ∧ q3.1.length ≤ 2) ||
               decide (1 ≤ q1.1.length ∧ q1.1.length ≤ 2 ∧ 1 ≤ q2.1.length ∧
                  q2.1.length ≤ 2 ∧ q3.1.length = 4))))

/-- `_DATE_RE.match(s)` as a full-string test (the pattern is anchored with
`^\s*...\s*$`). -/
def matchDateRe (s : String) : Bool := dateCore (trimChars s.data)

/-- Gregorian leap year, as `datetime` validates it. -/
def isLeap (y : Nat) : Bool := y % 4 = 0 && (y % 100 ≠ 0 || y % 400 = 0)

/-- Days in a month, as `datetime` validates them. -/
def daysInMonth (y m : Nat) : Nat :=
  if m = 2 then (if isLeap y then 29 else 28)
  else if m = 4 ∨ m = 6 ∨ m = 9 ∨ m = 11 then 30
  else 31

/-- `datetime(year, month, day)` constructor validity. -/
def validYMD (y m d : Nat) : Bool :=
  decide (1 ≤ y ∧ y ≤ 9999 ∧ 1 ≤ m ∧ m ≤ 12 ∧ 1 ≤ d) && decide (d ≤ daysInMonth y m)

/-- Split a character list at a separator character into groups. -/
def splitOnChar (sep : Char) : List Char → List (List Char)
  | [] => [[]]
  | c :: r =>
    let rest := splitOnChar sep r
    if c = sep then [] :: rest
    else (c :: rest.headI) :: rest.tail

/-- The digit groups of a string made only of digits and one separator kind
(`strptime` with `-`- or `/`-separated numeric directives). -/
def digitGroups (sep : Char) (cs : List Char) : Option (List (List Char)) :=
  if cs.all (fun c => c.isDigit || c = sep) then some (splitOnChar sep cs)
  else Option.none

/-- `strptime(s, "%Y<sep>%m<sep>%d")`: `%Y` is exactly four digits, `%m` and
`%d` one or two; the resulting date must be constructible. Returns the year. -/
def tryYMD (sep : Char) (cs : List Char) : Option Nat :=
  match digitGroups sep cs with
  | some [g1, g2, g3] =>
    if g1.length = 4 ∧ 1 ≤ g2.length ∧ g2.length ≤ 2 ∧ 1 ≤ g3.length ∧ g3.length ≤ 2 ∧
        validYMD (digitsToNat g1) (digitsToNat g2) (digitsToNat g3) = true
    then some (digitsToNat g1) else Option.none
  | _ => Option.none

/-- `strptime(s, "%d<sep>%m<sep>%Y")`. Returns the year. -/
def tryDMY (sep : Char) (cs : List Char) : Option Nat :=
  match digitGroups sep cs with
  | some [g1, g2, g3] =>
    if g3.length = 4 ∧ 1 ≤ g1.length ∧ g1.length ≤ 2 ∧ 1 ≤ g2.length ∧ g2.length ≤ 2 ∧
        validYMD (digitsToNat g3) (digitsToNat g2) (digitsToNat g1) = true
    then some (digitsToNat g3) else Option.none
  | _ => Option.none

/-- `strptime(s, "%Y<sep>%m")` (day defaults to 1). Returns the year. -/
def tryYM (sep : Char) (cs : List Char) : Option Nat :=
  match digitGroups sep cs with
  | some [g1, g2] =>
    if g1.length = 4 ∧ 1 ≤ g2.length ∧ g2.length ≤ 2 ∧
        validYMD (digitsToNat g1) (digitsToNat g2) 1 = true
    then some (digitsToNat g1) else Option.none
  | _ => Option.none

/-- `strptime(s, "%Y")`. Returns the year. -/
def tryY (cs : List Char) : Option Nat :=
  if cs.all (fun c => c.isDigit) ∧ cs.length = 4 ∧ 1 ≤ digitsToNat cs
  then some (digitsToNat cs) else Option.none

/-- The `_DATE_FORMATS` loop of `generalize_date_to_decade`
(`core/data_steward.py` lines 64-89): the first matching format wins. -/
def strptimeYear (cs : List Char) : Option Nat :=
  (tryYMD '-' cs) <|> (tryYMD '/' cs) <|> (tryDMY '-' cs) <|> (tryDMY '/' cs) <|>
    (tryYM '-' cs) <|> (tryYM '/' cs) <|> (tryY cs)

/-- First run of four consecutive digits (`re.findall(r"\d\d\d\d", s)[0]`). -/
def firstFourDigitRun : List Char → Option Nat
  | [] => Option.none
  | c :: r =>
    if (c :: r).length ≥ 4 ∧ ((c :: r).take 4).all (fun x => x.isDigit)
    then some (digitsToNat ((c :: r).take 4))
    else firstFourDigitRun r

/-- `f"{decade}s"`. -/
def decadeStr (y : Nat) : String := toString ((y / 10) * 10) ++ "s"

/-- `generalize_date_to_decade` (`core/data_steward.py` lines 72-99) on one
cell: `None`/`NaN` pass through (a `NaN` renders as `"nan"`, which matches no
format and not the regex, and is modelled directly); otherwise try the known
formats, then the regex fallback with the first four-digit run; on failure
return the original value. -/
def generalizeDateToDecade (c : CellV) : CellV :=
  match c with
  | .na => .na
  | v =>
    let s := trimChars (cellStr v).data
    match strptimeYear s with
    | some y => .s (decadeStr y)
    | Option.none =>
      if dateCore s then
        match firstFourDigitRun s with
        | some y => .s (decadeStr y)
        | Option.none => v
      else v

/-- `generalize_job_from_map` (`core/data_steward.py` lines 43-51) on one
cell: `None`/`NaN` pass through; otherwise look the lower-cased stripped
title up in the jobs mapping, defaulting to `"other"`. -/
def generalizeJobFromMap (jobsMap : List (String × String)) (c : CellV) : CellV :=
  match c with
  | .na => .na
  | v => .s (((jobsMap.lookup ((cellStr v).trim.toLower)).getD "other"))

/-- A steward dataframe column: its cells and whether `astype("category")`
has been applied. -/
structure Col where
  cells : List CellV
  categorical : Bool
deriving DecidableEq

/-- One action entry of the feedback plan:
`{"status": "accepted"|"rejected", "value": <string|null>}`. -/
structure ActionCfg where
  status : String
  value : Option String
deriving DecidableEq

/-- `col in df.columns`. -/
def hasCol (df : List (String × Col)) (c : String) : Bool := (df.lookup c).isSome

/-- `df[col]` (junk empty column when absent; calls are guarded). -/
def getCol (df : List (String × Col)) (c : String) : Col :=
  (df.lookup c).getD ⟨[], false⟩

/-- `out[col] = ...`: replace one column, everything else untouched. -/
def setCol (df : List (String × Col)) (c : String) (f : Col → Col) :
    List (String × Col) :=
  df.map (fun p => if p.1 = c then (p.1, f p.2) else p)

/-- `act = actions.get(a)` followed by
`act and act.get("status") == "accepted"`. -/
def accepted (acts : List (String × ActionCfg)) (a : String) : Bool :=
  match acts.lookup a with
  | some cfg => cfg.status = "accepted"
  | Option.none => false

/-- The `"value"` of the fill action (`fill_cfg.get("value")`). -/
def fillChoice (acts : List (String × ActionCfg)) : Option String :=
  match acts.lookup "fill" with
  | some cfg => cfg.value
  | Option.none => Option.none

/-- One cell of `full_analyze_mask` (`core/csv_pii.py` lines 99-135):
`NaN` cells append `None`; any other cell is stringified, analyzed, filtered
at `MIN_SCORE = 0.6`, conflict-resolved and masked. -/
def fullAnalyzeMaskCell (analyzer : String → List Span)
    (glossary : List (String × String)) (c : CellV) : CellV :=
  match c with
  | .na => .na
  | v =>
    let txt := cellStr v
    let results := (analyzer txt).filter (fun r => (3 : ℚ) / 5 ≤ r.score)
    .s (String.mk (maskChars glossary txt.data (resolveSpans results)))

/-- `full_analyze_mask` over a column. -/
def fullAnalyzeMask (analyzer : String → List Span)
    (glossary : List (String × String)) (cells : List CellV) : List CellV :=
  cells.map (fullAnalyzeMaskCell analyzer glossary)

/-- First non-missing cell (`df[col].dropna().iloc[0]`). -/
def firstNonNa (cells : List CellV) : Option CellV :=
  cells.find? (fun c => ! isNaCell c)

/-- `sample_val = str(df[col].dropna().iloc[0]) if not df[col].dropna().empty
else ""` (`core/data_steward.py` line 165), taken from the ORIGINAL df. -/
def sampleValOf (sampleCol : List CellV) : String :=
  match firstNonNa sampleCol with
  | some c => cellStr c
  | Option.none => ""

/-- `out[col].astype(str).str.match(_DATE_RE).mean()` of the fallback branch
(`core/data_steward.py` line 173). -/
def dateLikeFrac (cells : List CellV) : ℚ :=
  (cells.countP (fun c => matchDateRe (cellStr c)) : ℚ) / cells.length

/-- The generalize dispatch (`core/data_steward.py` lines 163-177):
`gen_type = "date" if _DATE_RE.match(sample_val) else "job"`, then the
`job` / `date` / fallback if-chain.  The second component records whether
the fallback branch (lines 171-177) ran. -/
def genDispatch (jobsMap : List (String × String)) (sampleCol cells : List CellV) :
    List CellV × Bool :=
  let genType : String := if matchDateRe (sampleValOf sampleCol) then "date" else "job"
  if genType = "job" then (cells.map (generalizeJobFromMap jobsMap), false)
  else if genType = "date" then (cells.map generalizeDateToDecade, false)
  else
    if dateLikeFrac cells ≥ 1 / 2 then (cells.map generalizeDateToDecade, true)
    else (cells.map (generalizeJobFromMap jobsMap), true)

/-- The per-column action sequence of `apply_recommendations`
(`core/data_steward.py` lines 129-182): fill, then mask, then generalize
(sampling from the ORIGINAL `df`), then categorize, each guarded by
`status == "accepted"`. -/
def applyActionsOnCol (analyzer : String → List Span)
    (glossary jobsMap : List (String × String))
    (df out : List (String × Col)) (col : String)
    (acts : List (String × ActionCfg)) : List (String × Col) :=
  let out1 := if accepted acts "fill" then
      setCol out col (fun c => ⟨applyFill c.cells (fillChoice acts), c.categorical⟩)
    else out
  let out2 := if accepted acts "mask" then
      setCol out1 col (fun c => ⟨fullAnalyzeMask analyzer glossary c.cells, c.categorical⟩)
    else out1
  let out3 := if accepted acts "generalize" then
      setCol out2 col
        (fun c => ⟨(genDispatch jobsMap (getCol df col).cells c.cells).1, c.categorical⟩)
    else out2
  if accepted acts "categorize" then setCol out3 col (fun c => ⟨c.cells, true⟩) else out3

/-- The accepted drops present in the columns (`core/data_steward.py` lines
116-120; at collection time `out` still has all the columns of `df`). -/
def colsToDropOf (feedback : List (String × List (String × ActionCfg)))
    (df : List (String × Col)) : List String :=
  (feedback.filter (fun p => accepted p.2 "drop" && hasCol df p.1)).map (fun p => p.1)

/-- `apply_recommendations` (`core/data_steward.py` lines 102-184) as a pure
function of the input dataframe: collect accepted drops, remove those
columns, then fold the per-column actions over the feedback entries,
skipping columns no longer present. -/
def applyRecommendations (analyzer : String → List Span)
    (glossary jobsMap : List (String × String))
    (df : List (String × Col))
    (feedback : List (String × List (String × ActionCfg))) : List (String × Col) :=
  feedback.foldl
    (fun out p =>
      if hasCol out p.1 then applyActionsOnCol analyzer glossary jobsMap df out p.1 p.2
      else out)
    (df.filter (fun p => ! (colsToDropOf feedback df).contains p.1))

/-- The mutable state of `apply_recommendations`: the parameter `df` and the
local `out`. -/
structure StewState where
  df : List (String × Col)
  out : List (String × Col)
deriving DecidableEq

/-- `apply_recommendations` as a state transformer: line 110 copies `df`
into `out` (`out = df.copy(deep=True)`, value semantics); every following
statement assigns only to `out`, reading `df` where the source reads `df`. -/
def applyRecommendationsProg (analyzer : String → List Span)
    (glossary jobsMap : List (String × String))
    (feedback : List (String × List (String × ActionCfg)))
    (s : StewState) : StewState :=
  feedback.foldl
    (fun st p =>
      if hasCol st.out p.1 then
        ⟨st.df, applyActionsOnCol analyzer glossary jobsMap st.df st.out p.1 p.2⟩
      else st)
    ⟨s.df, s.df.filter (fun p => ! (colsToDropOf feedback s.df).contains p.1)⟩

theorem serializeRecommendation_keys (rec llm : List (String × PyVal)) :
    (serializeRecommendation rec llm).map Prod.fst = rec.map Prod.fst := by
  unfold serializeRecommendation
  rw [List.map_map]
  rfl

theorem serializeRecommendation_mem (rec llm : List (String × PyVal))
    {k : String} {v : PyVal} (hkv : (k, v) ∈ rec) :
    (k, PyVal.dict [("manual", jsonSafe v), ("llm", llmFieldOf llm k)]) ∈
      serializeRecommendation rec llm := by
  unfold serializeRecommendation
  exact List.mem_map.mpr ⟨(k, v), hkv, rfl⟩

theorem llmFieldOf_missing (llm : List (String × PyVal)) (k : String)
    (h : llm.lookup k = Option.none) : llmFieldOf llm k = .str noLlmRecMsg := by
  unfold llmFieldOf
  rw [h]

/-- C1 (amended): the serialized recommendation payload contains exactly the
columns of the rule-based grouping (same keys, same order); each entry
carries the grouping's recommendations under `"manual"`; and a grouped
column with no decision-maker entry gets the literal string
`"We don t have recommendation for this column"` as its `"llm"` field. -/
theorem C1_serialized_payload (rec llm : List (String × PyVal)) :
    (serializeRecommendation rec llm).map Prod.fst = rec.map Prod.fst
    ∧ (∀ k v, (k, v) ∈ rec →
        (k, PyVal.dict [("manual", jsonSafe v), ("llm", llmFieldOf llm k)]) ∈
          serializeRecommendation rec llm)
    ∧ (∀ k, llm.lookup k = Option.none → llmFieldOf llm k = .str noLlmRecMsg) :=
  ⟨serializeRecommendation_keys rec llm,
   fun _ _ hkv => serializeRecommendation_mem rec llm hkv,
   fun k hk => llmFieldOf_missing llm k hk⟩

/-- C1 witness: the payload properties evaluated at a one-column grouping
with an empty decision-maker output. -/
theorem C1_serialized_payload_witness :
    (serializeRecommendation [("c", PyVal.int 1)] []).map Prod.fst =
      [("c", PyVal.int 1)].map Prod.fst
    ∧ (("c", PyVal.int 1) ∈ ([("c", PyVal.int 1)] : List (String × PyVal))
        ∧ ("c", PyVal.dict [("manual", jsonSafe (PyVal.int 1)),
            ("llm", llmFieldOf [] "c")]) ∈
          serializeRecommendation [("c", PyVal.int 1)] [])
    ∧ (([] : List (String × PyVal)).lookup "c" = Option.none
        ∧ llmFieldOf [] "c" = .str noLlmRecMsg) :=
  ⟨(C1_serialized_payload [("c", PyVal.int 1)] []).1,
   ⟨List.mem_singleton.mpr rfl,
    (C1_serialized_payload [("c", PyVal.int 1)] []).2.1 "c" (PyVal.int 1)
      (List.mem_singleton.mpr rfl)⟩,
   ⟨rfl, (C1_serialized_payload [("c", PyVal.int 1)] []).2.2 "c" rfl⟩⟩

/-- C1 counterexample: the literal written by the code is
`"We don t have recommendation for this column"` (space, no apostrophe), not
the claim's `"We don\x27t have recommendation for this column"`: the claim's
string is not reproduced bit-exact. -/
theorem C1_counterexample :
    serializeRecommendation [("col", PyVal.list [])] [] =
      [("col", PyVal.dict [("manual", PyVal.list []),
        ("llm", PyVal.str "We don t have recommendation for this column")])]
    ∧ "We don t have recommendation for this column" ≠
        "We don\x27t have recommendation for this column" := by
  constructor
  · simp [serializeRecommendation, jsonSafe, jsonSafeList, llmFieldOf, noLlmRecMsg]
  · decide

/-- C9: span conflict resolution is idempotent: running the resolver on its
own selected output yields exactly that same selection. -/
theorem C9_resolver_idempotent (l : List Span) :
    resolveSpans (resolveSpans l) = resolveSpans l :=
  resolveSpans_idem l

/-- C3 (amended): the resolver sorts by `(start, -end)` and walks greedily;
the resulting selection is non-overlapping (each selected span ends no later
than the next starts) and ordered by start; in each direct comparison of two
overlapping spans the strictly longer span is kept and, at equal length, the
strictly higher-scored span (stated on two-span inputs, where the comparison
is direct).  The claim's global preference statement is corrected by
`C3_counterexample`. -/
theorem C3_resolver_properties (l : List Span) (a b : Span) :
    List.Chain' apart (resolveSpans l)
    ∧ List.Sorted startLe (resolveSpans l)
    ∧ (overlaps a b → spanLen b < spanLen a → resolveSpans [a, b] = [a])
    ∧ (overlaps a b → spanLen a = spanLen b → b.score < a.score →
        resolveSpans [a, b] = [a]) :=
  ⟨resolveSpans_chain l, resolveSpans_sorted_start l,
   fun hov hlen => resolveSpans_pair_longer a b hov hlen,
   fun hov hlen hsc => resolveSpans_pair_score a b hov hlen hsc⟩

/-- C3 witness: the resolver properties evaluated on concrete spans. -/
theorem C3_resolver_properties_witness :
    List.Chain' apart (resolveSpans [⟨0, 11, "A", 1⟩, ⟨5, 15, "B", 1⟩, ⟨11, 13, "C", 1⟩])
    ∧ List.Sorted startLe
        (resolveSpans [⟨0, 11, "A", 1⟩, ⟨5, 15, "B", 1⟩, ⟨11, 13, "C", 1⟩])
    ∧ (overlaps ⟨0, 8, "A", 1⟩ ⟨3, 8, "B", 1⟩
        ∧ resolveSpans [⟨0, 8, "A", 1⟩, ⟨3, 8, "B", 1⟩] = [⟨0, 8, "A", 1⟩])
    ∧ (overlaps ⟨0, 5, "A", 2⟩ ⟨2, 7, "B", 1⟩
        ∧ resolveSpans [⟨0, 5, "A", 2⟩, ⟨2, 7, "B", 1⟩] = [⟨0, 5, "A", 2⟩]) :=
  ⟨(C3_resolver_properties [⟨0, 11, "A", 1⟩, ⟨5, 15, "B", 1⟩, ⟨11, 13, "C", 1⟩]
      ⟨0, 0, "", 0⟩ ⟨0, 0, "", 0⟩).1,
   (C3_resolver_properties [⟨0, 11, "A", 1⟩, ⟨5, 15, "B", 1⟩, ⟨11, 13, "C", 1⟩]
      ⟨0, 0, "", 0⟩ ⟨0, 0, "", 0⟩).2.1,
   ⟨by decide,
    (C3_resolver_properties [] ⟨0, 8, "A", 1⟩ ⟨3, 8, "B", 1⟩).2.2.1
      (by decide) (by decide)⟩,
   ⟨by decide,
    (C3_resolver_properties [] ⟨0, 5, "A", 2⟩ ⟨2, 7, "B", 1⟩).2.2.2
      (by decide) (by decide) (by decide)⟩⟩

/-- C3 counterexample: the selection does NOT always prefer the longer of
two overlapping spans.  With spans `(0,11)`, `(5,15)`, `(11,13)` (scores 1,
passing the 0.6 filter), span `(5,15)` overlaps the selected `(11,13)` and is
strictly longer, yet `(11,13)` is selected and `(5,15)` is not: the long span
was eliminated earlier by `(0,11)` and the incumbent then released the
shorter trailing span. -/
theorem C3_counterexample :
    resolveSpans [⟨0, 11, "A", 1⟩, ⟨5, 15, "B", 1⟩, ⟨11, 13, "C", 1⟩] =
      [⟨0, 11, "A", 1⟩, ⟨11, 13, "C", 1⟩]
    ∧ overlaps ⟨5, 15, "B", 1⟩ ⟨11, 13, "C", 1⟩
    ∧ spanLen ⟨11, 13, "C", 1⟩ < spanLen ⟨5, 15, "B", 1⟩
    ∧ (⟨5, 15, "B", 1⟩ : Span) ∉
        resolveSpans [⟨0, 11, "A", 1⟩, ⟨5, 15, "B", 1⟩, ⟨11, 13, "C", 1⟩]
    ∧ (⟨11, 13, "C", 1⟩ : Span) ∈
        resolveSpans [⟨0, 11, "A", 1⟩, ⟨5, 15, "B", 1⟩, ⟨11, 13, "C", 1⟩]
    ∧ (3 : ℚ) / 5 ≤ (1 : ℚ) :=
  ⟨by decide, by decide, by decide, by decide, by decide, by norm_num⟩

theorem spansWithin_sum_le {text : List Char} :
    ∀ {es : List Span} {lastEnd : Nat}, spansWithin text lastEnd es = true →
      (es.map (fun e => e.stop - e.start)).sum + lastEnd ≤ text.length := by
  intro es
  induction es with
  | nil =>
    intro lastEnd h
    simpa [spansWithin] using h
  | cons e es ih =>
    intro lastEnd h
    simp only [spansWithin, Bool.and_eq_true, decide_eq_true_eq] at h
    obtain ⟨⟨h1, h2⟩, h3⟩ := h
    have := ih h3
    simp only [List.map_cons, List.sum_cons]
    omega

/-- C4: for spans that are start-ordered, non-overlapping and inside the
text, the masked output length equals `len(text)` minus the total selected
span length plus the total tag length, and the characters outside the
selected spans appear in the output unchanged and in order (their
concatenation is a sublist of the output). -/
theorem C4_mask_length_preserve (glossary : List (String × String))
    (text : List Char) (es : List Span) (h : spansWithin text 0 es = true) :
    (maskChars glossary text es).length =
      text.length - (es.map (fun e => e.stop - e.start)).sum +
        (es.map (fun e => (tagOf glossary e).length)).sum
    ∧ List.Sublist (unmasked text 0 es) (maskChars glossary text es) := by
  constructor
  · have hlen := maskGo_length glossary text es 0 h
    have hle := spansWithin_sum_le h
    unfold maskChars
    omega
  · exact unmasked_sublist_maskGo glossary text es 0

/-- C4 witness: length and preservation evaluated on a concrete text and a
concrete selected span. -/
theorem C4_mask_length_preserve_witness :
    spansWithin "hi bob x".data 0 [⟨3, 6, "PERSON", 1⟩] = true
    ∧ (maskChars [("PERSON", "Identity")] "hi bob x".data [⟨3, 6, "PERSON", 1⟩]).length =
        "hi bob x".data.length -
          ([(⟨3, 6, "PERSON", 1⟩ : Span)].map (fun e => e.stop - e.start)).sum +
          ([(⟨3, 6, "PERSON", 1⟩ : Span)].map
            (fun e => (tagOf [("PERSON", "Identity")] e).length)).sum
    ∧ List.Sublist (unmasked "hi bob x".data 0 [⟨3, 6, "PERSON", 1⟩])
        (maskChars [("PERSON", "Identity")] "hi bob x".data [⟨3, 6, "PERSON", 1⟩]) :=
  ⟨by decide,
   (C4_mask_length_preserve [("PERSON", "Identity")] "hi bob x".data
      [⟨3, 6, "PERSON", 1⟩] (by decide)).1,
   (C4_mask_length_preserve [("PERSON", "Identity")] "hi bob x".data
      [⟨3, 6, "PERSON", 1⟩] (by decide)).2⟩

/-- C5: the missing-value rule per column: at exactly 0% missing no
recommendation is emitted; at a missing fraction strictly between 0 and 0.6
(`5·missing < 3·total`) a fill is recommended with mean/median/max/min
candidates for numeric columns and the mode otherwise; at a fraction of 0.6
or above (including exactly 60%) a drop is recommended. -/
theorem C5_missing_value_rule (col : NaCol) :
    (0 < naLength col → naMissing col = 0 → analyzeTableNaCol col = Option.none)
    ∧ (0 < naMissing col → 5 * naMissing col < 3 * naLength col →
        analyzeTableNaCol col = some (.fill (ruleFilling col)))
    ∧ (3 * naLength col ≤ 5 * naMissing col → 0 < naLength col →
        analyzeTableNaCol col = some .drop) := by
  refine ⟨?_, ?_, ?_⟩
  · intro hn hm
    unfold analyzeTableNaCol
    rw [if_pos ⟨Nat.pos_iff_ne_zero.mp hn, by rw [hm]; simp⟩]
  · intro hm0 hmn
    have hn0 : naLength col ≠ 0 := by
      intro h
      rw [h] at hmn
      omega
    have hnq : (0 : ℚ) < (naLength col : ℚ) := by
      exact_mod_cast Nat.pos_of_ne_zero hn0
    have hpos : 0 < (naMissing col : ℚ) / (naLength col : ℚ) :=
      div_pos (by exact_mod_cast hm0) hnq
    have h5 : (naMissing col : ℚ) * 5 < 3 * (naLength col : ℚ) := by
      exact_mod_cast (by omega : naMissing col * 5 < 3 * naLength col)
    have hlt : (naMissing col : ℚ) / (naLength col : ℚ) < NA_THRESHOLD := by
      unfold NA_THRESHOLD
      rw [div_lt_div_iff₀ hnq (by norm_num)]
      exact h5
    unfold analyzeTableNaCol
    rw [if_neg, if_pos ⟨hn0, hpos, hlt⟩]
    rintro ⟨-, h0⟩
    rw [h0] at hpos
    exact lt_irrefl 0 hpos
  · intro h35 hn
    have hn0 : naLength col ≠ 0 := Nat.pos_iff_ne_zero.mp hn
    have hnq : (0 : ℚ) < (naLength col : ℚ) := by
      exact_mod_cast hn
    have hge : (3 : ℚ) / 5 ≤ (naMissing col : ℚ) / (naLength col : ℚ) := by
      rw [div_le_div_iff₀ (by norm_num) hnq]
      exact_mod_cast (by omega : 3 * naLength col ≤ naMissing col * 5)
    have hA : ¬ (naLength col ≠ 0 ∧ (naMissing col : ℚ) / (naLength col : ℚ) = 0) := by
      rintro ⟨-, h0⟩
      rw [h0] at hge
      norm_num at hge
    have hB : ¬ (naLength col ≠ 0 ∧ 0 < (naMissing col : ℚ) / (naLength col : ℚ) ∧
        (naMissing col : ℚ) / (naLength col : ℚ) < NA_THRESHOLD) := by
      rintro ⟨-, -, hlt⟩
      unfold NA_THRESHOLD at hlt
      linarith
    unfold analyzeTableNaCol
    rw [if_neg hA, if_neg hB]

/-- C5 witness: the three regimes exercised on concrete columns, with a drop
at exactly 60% missing. -/
theorem C5_missing_value_rule_witness :
    (0 < naLength (.txt [some "x"]) ∧ naMissing (.txt [some "x"]) = 0
      ∧ analyzeTableNaCol (.txt [some "x"]) = Option.none)
    ∧ (0 < naMissing (.num [some 1, some 3, Option.none])
      ∧ 5 * naMissing (.num [some 1, some 3, Option.none]) <
          3 * naLength (.num [some 1, some 3, Option.none])
      ∧ analyzeTableNaCol (.num [some 1, some 3, Option.none]) =
          some (.fill (ruleFilling (.num [some 1, some 3, Option.none]))))
    ∧ (3 * naLength (.txt [some "x", Option.none, some "x", Option.none, Option.none]) ≤
        5 * naMissing (.txt [some "x", Option.none, some "x", Option.none, Option.none])
      ∧ 0 < naLength (.txt [some "x", Option.none, some "x", Option.none, Option.none])
      ∧ analyzeTableNaCol (.txt [some "x", Option.none, some "x", Option.none, Option.none]) =
          some .drop) :=
  ⟨⟨by decide, by decide,
    (C5_missing_value_rule (.txt [some "x"])).1 (by decide) (by decide)⟩,
   ⟨by decide, by decide,
    (C5_missing_value_rule (.num [some 1, some 3, Option.none])).2.1
      (by decide) (by decide)⟩,
   ⟨by decide, by decide,
    (C5_missing_value_rule
        (.txt [some "x", Option.none, some "x", Option.none, Option.none])).2.2
      (by decide) (by decide)⟩⟩

/-- C6 (amended): `recommend_actions` takes the substring of the trimmed
untrusted response from the FIRST `\x7b` to the LAST `\x7d` and parses it;
whenever that parse fails or yields a non-object, or the response is missing
or empty, the action plan is the empty mapping, while the rule-based grouped
recommendations are still returned (same columns, each with its `"manual"`
entry). -/
theorem C6_plan_extraction (grouped : List (String × PyVal)) (raw : Option String) :
    (recommendActionsResult grouped raw).map Prod.fst = grouped.map Prod.fst
    ∧ (∀ k v, (k, v) ∈ grouped →
        (k, PyVal.dict [("manual", jsonSafe v),
          ("llm", llmFieldOf (parsePlan raw) k)]) ∈ recommendActionsResult grouped raw)
    ∧ (∀ s, raw = some s →
        (∀ kvs, jsonLoadsChars (extractCleaned s) ≠ some (.dict kvs)) →
        parsePlan raw = [])
    ∧ (raw = Option.none → parsePlan raw = []) := by
  refine ⟨serializeRecommendation_keys grouped (parsePlan raw),
    fun _ _ hkv => serializeRecommendation_mem grouped (parsePlan raw) hkv, ?_, ?_⟩
  · intro s hs hparse
    subst hs
    dsimp only [parsePlan]
    split_ifs with hc
    · rfl
    · cases hj : jsonLoadsChars (extractCleaned s) with
      | none => rfl
      | some v =>
        cases v with
        | dict kvs => exact absurd hj (hparse kvs)
        | none => rfl
        | str s => rfl
        | bool b => rfl
        | int n => rfl
        | float q => rfl
        | list xs => rfl
  · intro h
    subst h
    rfl

/-- C6 witness: the robustness conclusions evaluated on a concrete grouping
and a response with no JSON object in it. -/
theorem C6_plan_extraction_witness :
    (recommendActionsResult [("c", PyVal.int 1)] (some "no json here")).map Prod.fst =
      [("c", PyVal.int 1)].map Prod.fst
    ∧ (("c", PyVal.int 1) ∈ ([("c", PyVal.int 1)] : List (String × PyVal))
      ∧ ("c", PyVal.dict [("manual", jsonSafe (PyVal.int 1)),
          ("llm", llmFieldOf (parsePlan (some "no json here")) "c")]) ∈
        recommendActionsResult [("c", PyVal.int 1)] (some "no json here"))
    ∧ parsePlan (some "no json here") = []
    ∧ parsePlan Option.none = [] :=
  ⟨(C6_plan_extraction [("c", PyVal.int 1)] (some "no json here")).1,
   ⟨List.mem_singleton.mpr rfl,
    (C6_plan_extraction [("c", PyVal.int 1)] (some "no json here")).2.1 "c"
      (PyVal.int 1) (List.mem_singleton.mpr rfl)⟩,
   (C6_plan_extraction [("c", PyVal.int 1)] (some "no json here")).2.2.1
     "no json here" rfl
     (fun kvs hkvs => by
       rw [show jsonLoadsChars (extractCleaned "no json here") = Option.none from rfl]
         at hkvs
       exact Option.noConfusion hkvs),
   (C6_plan_extraction [("c", PyVal.int 1)] Option.none).2.2.2 rfl⟩

/-- C6 counterexample: the code does not extract the first top-level balanced
JSON object.  On the response `\x7b"a": 1\x7d \x7b"b": 2\x7d` the code slices
from the first `\x7b` to the last `\x7d`, which is not valid JSON, so the
plan is empty — while the claim's first-balanced-object reading yields the
plan `\x7b"a": 1\x7d`; the grouped recommendations are still returned with
the fallback `"llm"` text. -/
theorem C6_counterexample :
    parsePlan (some "\x7b\"a\": 1\x7d \x7b\"b\": 2\x7d") = []
    ∧ specFirstBalancedPlan (some "\x7b\"a\": 1\x7d \x7b\"b\": 2\x7d") =
        [("a", PyVal.int 1)]
    ∧ recommendActionsResult [("a", PyVal.list [])]
        (some "\x7b\"a\": 1\x7d \x7b\"b\": 2\x7d") =
      [("a", PyVal.dict [("manual", PyVal.list []), ("llm", PyVal.str noLlmRecMsg)])] := by
  refine ⟨rfl, rfl, ?_⟩
  have hp : parsePlan (some "\x7b\"a\": 1\x7d \x7b\"b\": 2\x7d") = [] := rfl
  simp [recommendActionsResult, serializeRecommendation, jsonSafe, jsonSafeList,
    llmFieldOf, hp]

/-- C7: for a non-empty dataframe the overall quality score is the rounded
weighted combination `0.4·completeness_avg + 0.3·(100 − duplicate_pct) +
0.3·avg(100 − invalid_pct)` (the source's `max(0, ·)` clamps are no-ops);
the reported score always lies in `[0, 100]`; an empty dataframe scores `0`
with category `"Poor"`. -/
theorem C7_quality_score (validOf : String → String → Bool) (df : QDf) :
    (0 < df.rows.length →
      (dataQualityScore validOf df).overall =
        round2 (compAvg df * (4 / 10) + (100 - dupPct df) * (3 / 10) +
          consAvgNoClamp validOf df * (3 / 10)))
    ∧ 0 ≤ (dataQualityScore validOf df).overall
    ∧ (dataQualityScore validOf df).overall ≤ 100
    ∧ (df.rows.length = 0 → dataQualityScore validOf df = ⟨0, "Poor"⟩) := by
  have hA := compAvg_bounds df
  have hB := dupScore_bounds df
  have hC := consAvg_bounds validOf df
  unfold dataQualityScore
  split_ifs with h
  · refine ⟨fun h0 => absurd h (by omega), by norm_num, by norm_num, fun _ => rfl⟩
  · have hob : 0 ≤ compAvg df * (4 / 10) + dupScore df * (3 / 10) +
        consAvg validOf df * (3 / 10) := by
      have := hA.1
      have := hB.1
      have := hC.1
      linarith
    have hub : compAvg df * (4 / 10) + dupScore df * (3 / 10) +
        consAvg validOf df * (3 / 10) ≤ 100 := by
      have := hA.2
      have := hB.2
      have := hC.2
      linarith
    refine ⟨fun _ => ?_, (round2_bounds hob hub).1, (round2_bounds hob hub).2,
      fun h0 => absurd h0 h⟩
    rw [dupScore_eq df, consAvg_eq validOf df]

/-- C7 witness: the score formula on a concrete two-row dataframe, and the
empty-dataframe case. -/
theorem C7_quality_score_witness :
    (0 < (QDf.mk ["a"] [[some "x"], [Option.none]]).rows.length
      ∧ (dataQualityScore (fun _ _ => true) (QDf.mk ["a"] [[some "x"], [Option.none]])).overall =
        round2 (compAvg (QDf.mk ["a"] [[some "x"], [Option.none]]) * (4 / 10) +
          (100 - dupPct (QDf.mk ["a"] [[some "x"], [Option.none]])) * (3 / 10) +
          consAvgNoClamp (fun _ _ => true) (QDf.mk ["a"] [[some "x"], [Option.none]]) * (3 / 10)))
    ∧ 0 ≤ (dataQualityScore (fun _ _ => true) (QDf.mk ["a"] [[some "x"], [Option.none]])).overall
    ∧ (dataQualityScore (fun _ _ => true) (QDf.mk ["a"] [[some "x"], [Option.none]])).overall ≤ 100
    ∧ ((QDf.mk [] []).rows.length = 0
      ∧ dataQualityScore (fun _ _ => true) (QDf.mk [] []) = ⟨0, "Poor"⟩) :=
  ⟨⟨by decide,
    (C7_quality_score (fun _ _ => true) (QDf.mk ["a"] [[some "x"], [Option.none]])).1
      (by decide)⟩,
   (C7_quality_score (fun _ _ => true) (QDf.mk ["a"] [[some "x"], [Option.none]])).2.1,
   (C7_quality_score (fun _ _ => true) (QDf.mk ["a"] [[some "x"], [Option.none]])).2.2.1,
   ⟨rfl, (C7_quality_score (fun _ _ => true) (QDf.mk [] [])).2.2.2 rfl⟩⟩

theorem stewFold_df (analyzer : String → List Span)
    (glossary jobsMap : List (String × String))
    (feedback : List (String × List (String × ActionCfg))) (s : StewState) :
    (feedback.foldl
      (fun (st : StewState) (p : String × List (String × ActionCfg)) =>
        if hasCol st.out p.1 then
          ⟨st.df, applyActionsOnCol analyzer glossary jobsMap st.df st.out p.1 p.2⟩
        else st)
      s).df = s.df := by
  induction feedback generalizing s with
  | nil => rfl
  | cons p fb ih =>
    simp only [List.foldl_cons]
    split_ifs with h
    · exact ih _
    · exact ih _

theorem stewFold_out (analyzer : String → List Span)
    (glossary jobsMap : List (String × String))
    (feedback : List (String × List (String × ActionCfg)))
    (d : List (String × Col)) :
    ∀ o : List (String × Col),
      (feedback.foldl
        (fun (st : StewState) (p : String × List (String × ActionCfg)) =>
          if hasCol st.out p.1 then
            ⟨st.df, applyActionsOnCol analyzer glossary jobsMap st.df st.out p.1 p.2⟩
          else st)
        ⟨d, o⟩).out =
      feedback.foldl
        (fun (out : List (String × Col)) (p : String × List (String × ActionCfg)) =>
          if hasCol out p.1 then applyActionsOnCol analyzer glossary jobsMap d out p.1 p.2
          else out)
        o := by
  induction feedback with
  | nil => intro o; rfl
  | cons p fb ih =>
    intro o
    simp only [List.foldl_cons]
    split_ifs with h
    · exact ih _
    · exact ih _

/-- C8: the Feedback Application Engine never mutates the original
dataframe: in the state embedding (where `df` and the local `out` are the
two mutable bindings and line 110 copies `df` into `out` by value), the
final state's `df` is the input `df` unchanged, and all effects appear only
in the returned `out`, which equals the pure `apply_recommendations`. -/
theorem C8_original_df_unchanged (analyzer : String → List Span)
    (glossary jobsMap : List (String × String))
    (df out0 : List (String × Col))
    (feedback : List (String × List (String × ActionCfg))) :
    (applyRecommendationsProg analyzer glossary jobsMap feedback ⟨df, out0⟩).df = df
    ∧ (applyRecommendationsProg analyzer glossary jobsMap feedback ⟨df, out0⟩).out =
        applyRecommendations analyzer glossary jobsMap df feedback := by
  constructor
  · exact stewFold_df analyzer glossary jobsMap feedback _
  · exact stewFold_out analyzer glossary jobsMap feedback df _

/-- C10: the generalize dispatch is fully determined by whether the sampled
first non-missing value of the ORIGINAL column matches the date regex —
date-to-decade on a match, the job-title mapping otherwise — and the
fallback branch (the 50% date-likeness check of lines 171-177) never runs. -/
theorem C10_generalize_fallback_unreachable (jobsMap : List (String × String))
    (sampleCol cells : List CellV) :
    (genDispatch jobsMap sampleCol cells).2 = false
    ∧ genDispatch jobsMap sampleCol cells =
        ((if matchDateRe (sampleValOf sampleCol) then cells.map generalizeDateToDecade
          else cells.map (generalizeJobFromMap jobsMap)), false) := by
  unfold genDispatch
  by_cases h : matchDateRe (sampleValOf sampleCol)
  · simp [h]
  · simp [h]

theorem numParseCount_le (cells : List CellV) : numParseCount cells ≤ cells.length :=
  List.countP_le_length _

theorem numericFrac_gt_half_iff (cells : List CellV) :
    ((numParseCount cells : ℚ) / (cells.length : ℚ) > 1 / 2 ↔
      2 * numParseCount cells > cells.length) := by
  rcases Nat.eq_zero_or_pos cells.length with h | h
  · have h0 : numParseCount cells = 0 :=
      Nat.le_zero.mp (h ▸ numParseCount_le cells)
    rw [h, h0]
    norm_num
  · have hq : (0 : ℚ) < (cells.length : ℚ) := by exact_mod_cast h
    rw [gt_iff_lt, div_lt_div_iff₀ (by norm_num) hq]
    constructor
    · intro hlt
      have : (cells.length : ℚ) < (numParseCount cells : ℚ) * 2 := by linarith
      have : cells.length < numParseCount cells * 2 := by exact_mod_cast this
      omega
    · intro hgt
      have : cells.length < numParseCount cells * 2 := by omega
      have : (cells.length : ℚ) < (numParseCount cells : ℚ) * 2 := by exact_mod_cast this
      linarith

/-- The statistic selected by the fill keyword over the numeric-parseable
subset (`core/data_steward.py` lines 138-145). -/
def statOf (choice : String) (xs : List ℚ) : ℚ :=
  if choice = "mean" then listMean xs
  else if choice = "median" then listMedian xs
  else if choice = "max" then listMax xs
  else listMin xs

/-- The mode fill value: most frequent non-missing cell, empty string when
the column has no non-missing cells (`core/data_steward.py` lines 147-150). -/
def modeFillVal (cells : List CellV) : CellV :=
  match modeCell (cells.filter (fun c => ! isNaCell c)) with
  | some m => m
  | Option.none => .s ""

/-- C2 (amended): the fill action per column: for `mean`/`median`/`max`/`min`
when more than half of ALL the column's cells (missing included) parse as
numeric, missing cells are filled with that statistic over the
numeric-parseable subset; for `mode`, with the most frequent non-missing
value (empty string when there is none); otherwise the fill value itself is
used, number-coerced when possible.  `fillna` touches only missing cells. -/
theorem C2_fill_engine (cells : List CellV) (choice : String) :
    ((choice = "mean" ∨ choice = "median" ∨ choice = "max" ∨ choice = "min") →
      2 * numParseCount cells > cells.length →
      applyFill cells (some choice) =
        cells.map (fillNaWith (.q (statOf choice (cells.filterMap cellToNum)))))
    ∧ applyFill cells (some "mode") = cells.map (fillNaWith (modeFillVal cells))
    ∧ ((2 * numParseCount cells ≤ cells.length ∨
          (choice ≠ "mean" ∧ choice ≠ "median" ∧ choice ≠ "max" ∧ choice ≠ "min")) →
        choice ≠ "mode" →
        applyFill cells (some choice) =
          cells.map (fillNaWith (toNumberIfPossible choice)))
    ∧ (∀ v c, (isNaCell c = true → fillNaWith v c = v) ∧
        (isNaCell c = false → fillNaWith v c = c)) := by
  refine ⟨?_, ?_, ?_, ?_⟩
  · intro hm hr
    unfold applyFill
    rw [if_pos ⟨by simpa using hm, (numericFrac_gt_half_iff cells).mpr hr⟩]
    unfold statOf
    simp only [Option.some.injEq]
  · unfold applyFill
    rw [if_neg, if_pos rfl]
    · unfold modeFillVal
      cases modeCell (cells.filter (fun c => ! isNaCell c)) with
      | none => rfl
      | some m => rfl
    · rintro ⟨hmem, -⟩
      simp only [Option.some.injEq] at hmem
      rcases hmem with h | h | h | h <;> exact absurd h (by decide)
  · intro hcond hmode
    unfold applyFill
    rw [if_neg, if_neg]
    · rintro hc
      simp only [Option.some.injEq] at hc
      exact hmode hc
    · rintro ⟨hmem, hfrac⟩
      simp only [Option.some.injEq] at hmem
      rcases hcond with hle | hne
      · exact absurd ((numericFrac_gt_half_iff cells).mp hfrac) (by omega)
      · rcases hmem with h | h | h | h
        · exact hne.1 h
        · exact hne.2.1 h
        · exact hne.2.2.1 h
        · exact hne.2.2.2 h
  · intro v c
    cases c <;> simp [fillNaWith, isNaCell]

/-- C2 witness: the statistic, mode and literal branches evaluated on
concrete columns. -/
theorem C2_fill_engine_witness :
    (("mean" = "mean" ∨ "mean" = "median" ∨ "mean" = "max" ∨ "mean" = "min")
      ∧ 2 * numParseCount [CellV.s "1", CellV.s "2", CellV.na] >
          (3 : Nat)
      ∧ applyFill [CellV.s "1", CellV.s "2", CellV.na] (some "mean") =
          [CellV.s "1", CellV.s "2", CellV.na].map
            (fillNaWith (.q (statOf "mean"
              ([CellV.s "1", CellV.s "2", CellV.na].filterMap cellToNum)))))
    ∧ applyFill [CellV.s "x", CellV.na, CellV.s "x", CellV.s "y"] (some "mode") =
        [CellV.s "x", CellV.na, CellV.s "x", CellV.s "y"].map
          (fillNaWith (modeFillVal [CellV.s "x", CellV.na, CellV.s "x", CellV.s "y"]))
    ∧ (2 * numParseCount [CellV.s "1", CellV.na, CellV.na] ≤ (3 : Nat)
      ∧ applyFill [CellV.s "1", CellV.na, CellV.na] (some "unknown") =
          [CellV.s "1", CellV.na, CellV.na].map
            (fillNaWith (toNumberIfPossible "unknown"))) :=
  ⟨⟨Or.inl rfl, by decide,
    (C2_fill_engine [CellV.s "1", CellV.s "2", CellV.na] "mean").1
      (Or.inl rfl) (by decide)⟩,
   (C2_fill_engine [CellV.s "x", CellV.na, CellV.s "x", CellV.s "y"] "mode").2.1,
   ⟨by decide,
    (C2_fill_engine [CellV.s "1", CellV.na, CellV.na] "unknown").2.2.1
      (Or.inl (by decide)) (by decide)⟩⟩

/-- C2 counterexample: the numeric-ratio test divides by the FULL column
length, not the non-missing count.  Column `["1", NaN, NaN]`: its single
non-missing value parses as numeric (so the claim's condition holds), yet
with `choice = "mean"` the code takes the literal branch and writes the
string `"mean"` into the gaps instead of the mean statistic. -/
theorem C2_counterexample :
    ([CellV.s "1", CellV.na, CellV.na].countP (fun c => ! isNaCell c) = 1
      ∧ numParseCount [CellV.s "1", CellV.na, CellV.na] = 1
      ∧ 2 * numParseCount [CellV.s "1", CellV.na, CellV.na] >
          [CellV.s "1", CellV.na, CellV.na].countP (fun c => ! isNaCell c))
    ∧ applyFill [CellV.s "1", CellV.na, CellV.na] (some "mean") =
        [CellV.s "1", CellV.s "mean", CellV.s "mean"]
    ∧ applyFill [CellV.s "1", CellV.na, CellV.na] (some "mean") ≠
        [CellV.s "1", CellV.na, CellV.na].map
          (fillNaWith (.q (statOf "mean"
            ([CellV.s "1", CellV.na, CellV.na].filterMap cellToNum)))) := by
  have heval : applyFill [CellV.s "1", CellV.na, CellV.na] (some "mean") =
      [CellV.s "1", CellV.s "mean", CellV.s "mean"] := by
    have hc : numParseCount [CellV.s "1", CellV.na, CellV.na] = 1 := by decide
    unfold applyFill
    rw [hc]
    norm_num
    decide
  refine ⟨⟨by decide, by decide, by decide⟩, heval, ?_⟩
  rw [heval]
  simp [fillNaWith]
